import Mathlib

/-!
Verification development for the `firewall` gRPC middleware package and the
`user` command handlers of the go-api-boilerplate repository.

The Go code is shallowly embedded: contexts become an explicit record of the
three facets the code reads or writes (the identity attached to the context,
the incoming metadata, the outgoing metadata pairs); gRPC handlers, invokers
and streamers become function parameters; fallible collaborators (JSON
marshalling, `uuid.NewRandom`, aggregate operations, `Repository.Save`)
return `Except`/`Option` values.
-/

set_option autoImplicit false

/-- Modelled from the spec: `identity.Identity` (package `identity` is a
collaborator outside the visible slice) carries a set of role labels
`Roles : set of string`; all other attributes are opaque to this layer and so
are omitted. -/
structure Identity where
  Roles : List String
deriving DecidableEq, Repr

/-- Go `error` values that this layer can produce or forward: the fixed
permission-denied status `ErrInvalidRole`, a JSON error carrying its message,
or an arbitrary application error coming from a handler or collaborator
(indexed by a number and a message so that distinct errors exist). -/
inductive GoError where
  | invalidRole : GoError
  | jsonErr : String → GoError
  | app : Nat → String → GoError
deriving DecidableEq, Repr

/-- Embeds `ErrInvalidRole = status.Errorf(codes.PermissionDenied, "Invalid role")`. -/
def ErrInvalidRole : GoError := GoError.invalidRole

/-- Embeds the fixed metadata key constant `mdIdentityKey = "identity"`. -/
def mdIdentityKey : String := "identity"

/-- Embeds gRPC `metadata.MD` (a map from keys to lists of values) as an
association list. -/
abbrev Metadata := List (String × List String)

/-- Embeds `md.Get(key)`: the list of values stored under `key`, or the empty
list when the key is absent. -/
def Metadata.get (md : Metadata) (key : String) : List String :=
  match md.find? (fun p => p.1 == key) with
  | some p => p.2
  | none => []

/-- Embeds the parts of a Go `context.Context` this layer reads or writes:
the identity attached via the `identity` package, the incoming metadata, and
the outgoing metadata pairs appended so far. -/
structure Context where
  identity : Option Identity
  incomingMD : Option Metadata
  outgoingMD : List (String × String)
deriving DecidableEq, Repr

/-- Embeds `identity.FromContext(ctx)`; `none` plays the role of `ok == false`. -/
def identity.FromContext (ctx : Context) : Option Identity :=
  ctx.identity

/-- Embeds `identity.ContextWithIdentity(ctx, i)`. -/
def identity.ContextWithIdentity (ctx : Context) (i : Identity) : Context :=
  { ctx with identity := some i }

/-- Embeds `metadata.FromIncomingContext(ctx)`; `none` plays the role of
`ok == false`. -/
def metadata.FromIncomingContext (ctx : Context) : Option Metadata :=
  ctx.incomingMD

/-- Embeds `metadata.AppendToOutgoingContext(ctx, key, val)`. -/
def metadata.AppendToOutgoingContext (ctx : Context) (key val : String) : Context :=
  { ctx with outgoingMD := ctx.outgoingMD ++ [(key, val)] }

/-- Embeds the step that turns one appended outgoing pair into incoming
metadata: the value is appended to the list already stored under the key. -/
def mdAppend (md : Metadata) (key val : String) : Metadata :=
  match md with
  | [] => [(key, [val])]
  | (k, vs) :: rest =>
    if k == key then (k, vs ++ [val]) :: rest else (k, vs) :: mdAppend rest key val

/-- Embeds the transport turning the ordered outgoing pairs of a context into
the incoming `metadata.MD` the server observes. -/
def pairsToMD (ps : List (String × String)) : Metadata :=
  ps.foldl (fun md p => mdAppend md p.1 p.2) []

/-- Embeds the `for _, userRole := range i.Roles` loop of the server
interceptors: a linear scan for the first exact, case-sensitive match. -/
def hasRole : List String → String → Bool
  | [], _ => false
  | r :: rs, role => if r == role then true else hasRole rs role

/-- Embeds `AppendIdentityToOutgoingUnaryContext` (firewall.go:26).
`marshal` stands for `json.Marshal` applied to an `Identity`; `invoker` is the
wrapped `grpc.UnaryInvoker`; the result is the returned `error`. -/
def AppendIdentityToOutgoingUnaryContext {Req Reply Conn CallOpt : Type}
    (marshal : Identity → Except GoError String)
    (invoker : Context → String → Req → Reply → Conn → List CallOpt → Option GoError)
    (ctx : Context) (method : String) (req : Req) (reply : Reply) (cc : Conn)
    (opts : List CallOpt) : Option GoError :=
  match identity.FromContext ctx with
  | some i =>
    match marshal i with
    | Except.error err => some err
    | Except.ok jsn =>
      invoker (metadata.AppendToOutgoingContext ctx mdIdentityKey jsn) method req reply cc opts
  | none => invoker ctx method req reply cc opts

/-- Embeds `AppendIdentityToOutgoingStreamContext` (firewall.go:47).
`streamer` is the wrapped `grpc.Streamer`; the result is the returned pair
`(grpc.ClientStream, error)`. -/
def AppendIdentityToOutgoingStreamContext {Desc Conn CallOpt ClientStream : Type}
    (marshal : Identity → Except GoError String)
    (streamer : Context → Desc → Conn → String → List CallOpt →
      Option ClientStream × Option GoError)
    (ctx : Context) (desc : Desc) (cc : Conn) (method : String)
    (opts : List CallOpt) : Option ClientStream × Option GoError :=
  match identity.FromContext ctx with
  | some i =>
    match marshal i with
    | Except.error err => (none, some err)
    | Except.ok jsn =>
      streamer (metadata.AppendToOutgoingContext ctx mdIdentityKey jsn) desc cc method opts
  | none => streamer ctx desc cc method opts

/-- Embeds a `grpc.ServerStream`: the only facet the firewall reads is
`ss.Context()`. -/
structure ServerStream where
  ctx : Context
deriving DecidableEq, Repr

/-- Embeds the `ss.Context()` accessor. -/
def ServerStream.Context (ss : ServerStream) : Context :=
  ss.ctx

/-- Embeds `GrantAccessForStreamRequest(role)` (firewall.go:72).
`unmarshal` stands for `json.Unmarshal` into an `Identity`; `handler` is the
wrapped `grpc.StreamHandler`; the decoded identity is NOT attached to the
stream's context before invoking the handler (the `TODO` left in the source). -/
def GrantAccessForStreamRequest {Srv : Type}
    (unmarshal : String → Except GoError Identity) (role : String)
    (handler : Srv → ServerStream → Option GoError)
    (srv : Srv) (ss : ServerStream) : Option GoError :=
  match metadata.FromIncomingContext ss.Context with
  | some md =>
    match md.get mdIdentityKey with
    | [] => some ErrInvalidRole
    | v :: _ =>
      match unmarshal v with
      | Except.error err => some err
      | Except.ok i =>
        if hasRole i.Roles role then handler srv ss
        else some ErrInvalidRole
  | none => some ErrInvalidRole

/-- Embeds `GrantAccessForUnaryRequest(role)` (firewall.go:106).
`handler` is the wrapped `grpc.UnaryHandler`; the result is the returned pair
`(resp interface\x7b\x7d, err error)`. On the allow path the handler receives
the context enriched with the decoded identity. -/
def GrantAccessForUnaryRequest {Req Resp : Type}
    (unmarshal : String → Except GoError Identity) (role : String)
    (handler : Context → Req → Option Resp × Option GoError)
    (ctx : Context) (req : Req) : Option Resp × Option GoError :=
  match metadata.FromIncomingContext ctx with
  | some md =>
    match md.get mdIdentityKey with
    | [] => (none, some ErrInvalidRole)
    | v :: _ =>
      match unmarshal v with
      | Except.error err => (none, some err)
      | Except.ok i =>
        let ctx2 := identity.ContextWithIdentity ctx i
        if hasRole i.Roles role then handler ctx2 req
        else (none, some ErrInvalidRole)
  | none => (none, some ErrInvalidRole)

/-!
Concrete JSON codec for `Identity`.
Modelled from the spec: the wire payload is "JSON encoding of the Identity
structure" under the fixed metadata key; the `identity` package and
`encoding/json` are collaborators outside the visible slice, so the encoder
and decoder below realise that contract concretely (object with a single
`roles` array of strings; quote and backslash are escaped).
-/

/-- Escapes one character for a JSON string literal. -/
def escapeChar (c : Char) : List Char :=
  if c = '"' ∨ c = '\\' then ['\\', c] else [c]

/-- Escapes every character of a JSON string body. -/
def escapeChars (l : List Char) : List Char :=
  l.flatMap escapeChar

/-- Parses a JSON string body up to and including the closing quote, undoing
`escapeChars`; returns the decoded characters and the remaining input. -/
def parseStrChars : List Char → Option (List Char × List Char)
  | [] => none
  | c :: rest =>
    if c = '"' then some ([], rest)
    else if c = '\\' then
      match rest with
      | [] => none
      | d :: rest2 =>
        match parseStrChars rest2 with
        | none => none
        | some (s, r) => some (d :: s, r)
    else
      match parseStrChars rest with
      | none => none
      | some (s, r) => some (c :: s, r)

/-- Encodes a non-empty role list as the inside of a JSON array, including the
closing bracket; each role is a quoted, escaped string. -/
def encodeRolesTail : List String → List Char
  | [] => []
  | [r] => '"' :: escapeChars r.data ++ ['"', ']']
  | r :: s :: rest => '"' :: escapeChars r.data ++ '"' :: ',' :: encodeRolesTail (s :: rest)

/-- Encodes a role list as the inside of a JSON array, including the closing
bracket. -/
def encodeRolesBody (roles : List String) : List Char :=
  match roles with
  | [] => [']']
  | _ :: _ => encodeRolesTail roles

/-- The characters every encoded identity starts with: an opening brace, the
`roles` key, and the opening bracket of the array. -/
def jsonHead : List Char :=
  '\x7b' :: "\"roles\":[".data

/-- Modelled from the spec: `json.Marshal` applied to an `Identity` (the
outgoing wire payload). -/
def marshalIdentity (i : Identity) : String :=
  String.mk (jsonHead ++ encodeRolesBody i.Roles ++ ['\x7d'])

/-- `json.Marshal` as the `Except`-valued collaborator the interceptors take:
marshalling this structure always succeeds. -/
def marshalIdentityE (i : Identity) : Except GoError String :=
  Except.ok (marshalIdentity i)

/-- Parses the inside of a non-empty JSON array of strings, fuel-bounded;
returns the decoded strings and the input remaining after the closing
bracket. -/
def parseRolesAux : Nat → List Char → Option (List String × List Char)
  | 0, _ => none
  | Nat.succ fuel, cs =>
    match cs with
    | [] => none
    | c :: rest =>
      if c = '"' then
        match parseStrChars rest with
        | none => none
        | some (s, rest2) =>
          match rest2 with
          | [] => none
          | d :: rest3 =>
            if d = ',' then
              match parseRolesAux fuel rest3 with
              | none => none
              | some (ss, rest4) => some (String.mk s :: ss, rest4)
            else if d = ']' then some ([String.mk s], rest3)
            else none
      else none

/-- Parses the inside of a JSON array of strings (empty or not). -/
def parseRoles (cs : List Char) : Option (List String × List Char) :=
  match cs with
  | [] => none
  | c :: rest =>
    if c = ']' then some ([], rest)
    else parseRolesAux (c :: rest).length (c :: rest)

/-- The single decode-error message of the modelled codec. -/
def invalidJsonMsg : String := "invalid json"

/-- Consumes an expected literal run of characters from the input. -/
def stripLead : List Char → List Char → Option (List Char)
  | [], cs => some cs
  | _ :: _, [] => none
  | p :: ps, c :: cs => if c = p then stripLead ps cs else none

/-- Modelled from the spec: `json.Unmarshal` of a metadata value into an
`Identity`; any input that is not a well-formed encoded identity yields a
JSON error, never `ErrInvalidRole`. -/
def unmarshalIdentity (s : String) : Except GoError Identity :=
  match stripLead jsonHead s.data with
  | none => Except.error (GoError.jsonErr invalidJsonMsg)
  | some rest =>
    match parseRoles rest with
    | none => Except.error (GoError.jsonErr invalidJsonMsg)
    | some (roles, rest2) =>
      match rest2 with
      | [c] =>
        if c = '\x7d' then Except.ok ⟨roles⟩
        else Except.error (GoError.jsonErr invalidJsonMsg)
      | _ => Except.error (GoError.jsonErr invalidJsonMsg)

/-!
Embedding of the `user` package command handlers.
`Repository`, the `User` aggregate with its operations, `uuid.NewRandom` and
`executioncontext.ContextWithFlag` are collaborators outside the visible
slice and are taken as parameters; an aggregate operation either fails or
returns the updated aggregate. Each handler is embedded as the observable
trace of one invocation of the closure: the ordered list of values sent on
the `out` error channel, paired with the number of `Repository.Save` calls.
-/

/-- Embeds `uuid.UUID` (opaquely, as a number). -/
abbrev UUID := Nat

/-- Embeds the `ChangeEmailAddress` command. -/
structure ChangeEmailAddress where
  ID : UUID
  Email : String
deriving DecidableEq, Repr

/-- Embeds the `RegisterWithEmail` command. -/
structure RegisterWithEmail where
  Email : String
deriving DecidableEq, Repr

/-- Embeds the `RegisterWithFacebook` command. -/
structure RegisterWithFacebook where
  Email : String
deriving DecidableEq, Repr

/-- Embeds the `RegisterWithGoogle` command. -/
structure RegisterWithGoogle where
  Email : String
deriving DecidableEq, Repr

/-- Embeds `OnChangeEmailAddress(repository)`: `repoGet` is
`repository.Get`, `repoSave` is `repository.Save`, `changeEmailAddress` is
the aggregate operation `u.ChangeEmailAddress`, `withLiveFlag` is
`executioncontext.ContextWithFlag(ctx, executioncontext.LIVE)`. The result is
(values sent on `out` in order, number of `repository.Save` calls). -/
def OnChangeEmailAddress {User : Type}
    (repoGet : UUID → User)
    (repoSave : Context → User → Option GoError)
    (changeEmailAddress : User → String → Except GoError User)
    (withLiveFlag : Context → Context)
    (ctx : Context) (c : ChangeEmailAddress) : List (Option GoError) × Nat :=
  let u := repoGet c.ID
  match changeEmailAddress u c.Email with
  | Except.error err => ([some err], 0)
  | Except.ok u2 => ([repoSave (withLiveFlag ctx) u2], 1)

/-- Embeds `OnRegisterWithEmail(repository)`: `newRandom` is the outcome of
`uuid.NewRandom()`, `newUser` is `New()`, `registerWithEmail` is the
aggregate operation `u.RegisterWithEmail`. Result as in
`OnChangeEmailAddress`. -/
def OnRegisterWithEmail {User : Type}
    (repoSave : Context → User → Option GoError)
    (newRandom : Except GoError UUID)
    (newUser : User)
    (registerWithEmail : User → UUID → String → Except GoError User)
    (withLiveFlag : Context → Context)
    (ctx : Context) (c : RegisterWithEmail) : List (Option GoError) × Nat :=
  match newRandom with
  | Except.error err => ([some err], 0)
  | Except.ok id =>
    match registerWithEmail newUser id c.Email with
    | Except.error err => ([some err], 0)
    | Except.ok u2 => ([repoSave (withLiveFlag ctx) u2], 1)

/-- Embeds `OnRegisterWithFacebook(repository)`; see `OnRegisterWithEmail`. -/
def OnRegisterWithFacebook {User : Type}
    (repoSave : Context → User → Option GoError)
    (newRandom : Except GoError UUID)
    (newUser : User)
    (registerWithFacebook : User → UUID → String → Except GoError User)
    (withLiveFlag : Context → Context)
    (ctx : Context) (c : RegisterWithFacebook) : List (Option GoError) × Nat :=
  match newRandom with
  | Except.error err => ([some err], 0)
  | Except.ok id =>
    match registerWithFacebook newUser id c.Email with
    | Except.error err => ([some err], 0)
    | Except.ok u2 => ([repoSave (withLiveFlag ctx) u2], 1)

/-- Embeds `OnRegisterWithGoogle(repository)`; see `OnRegisterWithEmail`. -/
def OnRegisterWithGoogle {User : Type}
    (repoSave : Context → User → Option GoError)
    (newRandom : Except GoError UUID)
    (newUser : User)
    (registerWithGoogle : User → UUID → String → Except GoError User)
    (withLiveFlag : Context → Context)
    (ctx : Context) (c : RegisterWithGoogle) : List (Option GoError) × Nat :=
  match newRandom with
  | Except.error err => ([some err], 0)
  | Except.ok id =>
    match registerWithGoogle newUser id c.Email with
    | Except.error err => ([some err], 0)
    | Except.ok u2 => ([repoSave (withLiveFlag ctx) u2], 1)

/-
Helper lemmas: the role scan agrees with list membership, the modelled
decoder fails only with a JSON error, and decoding inverts encoding.
-/

/-- The linear role scan succeeds exactly on list membership. -/
theorem hasRole_eq_true_iff (l : List String) (role : String) :
    hasRole l role = true ↔ role ∈ l := by
  induction l with
  | nil => simp [hasRole]
  | cons r rs ih =>
    by_cases h : r = role
    · simp [hasRole, h]
    · have hb : (r == role) = false := by
        simp [h]
      have hr : ¬role = r := fun hh => h hh.symm
      simp [hasRole, hb, ih, hr]

/-- The linear role scan fails exactly on non-membership. -/
theorem hasRole_eq_false_iff (l : List String) (role : String) :
    hasRole l role = false ↔ role ∉ l := by
  rw [← hasRole_eq_true_iff]
  cases h : hasRole l role <;> simp [h]

/-- Every error the modelled decoder produces is a JSON error with the fixed
message; in particular it is never `ErrInvalidRole`. -/
theorem unmarshalIdentity_error (s : String) (e : GoError)
    (h : unmarshalIdentity s = Except.error e) :
    e = GoError.jsonErr invalidJsonMsg := by
  rw [unmarshalIdentity] at h
  rcases h1 : stripLead jsonHead s.data with _ | rest
  · rw [h1] at h
    simp at h
    exact h.symm
  · rw [h1] at h
    simp only [] at h
    rcases h2 : parseRoles rest with _ | ⟨roles, rest2⟩
    · rw [h2] at h
      simp at h
      exact h.symm
    · rw [h2] at h
      simp only [] at h
      match rest2, h with
      | [], h => simp at h; exact h.symm
      | [c], h =>
        by_cases hc : c = '\x7d'
        · simp [hc] at h
        · simp [hc] at h; exact h.symm
      | c :: d :: r2, h => simp at h; exact h.symm

theorem stripLead_append : ∀ (p r : List Char), stripLead p (p ++ r) = some r
  | [], r => rfl
  | c :: ps, r => by simp [stripLead, stripLead_append ps r]

theorem parseStrChars_escape : ∀ (l r : List Char),
    parseStrChars (escapeChars l ++ '"' :: r) = some (l, r)
  | [], r => by
    rw [parseStrChars.eq_def]
    simp [escapeChars]
  | c :: t, r => by
    have ih := parseStrChars_escape t r
    simp only [escapeChars] at ih ⊢
    by_cases h : c = '"' ∨ c = '\\'
    · rw [List.flatMap_cons]
      rw [escapeChar, if_pos h]
      rw [List.cons_append, List.cons_append, parseStrChars.eq_def]
      simp [ih]
    · push_neg at h
      rw [List.flatMap_cons]
      rw [escapeChar, if_neg (by simp [h.1, h.2])]
      rw [List.cons_append, parseStrChars.eq_def]
      simp [h.1, h.2, ih]

theorem encodeRolesTail_parse :
    ∀ (roles : List String) (fuel : Nat) (rest : List Char), roles ≠ [] →
      roles.length ≤ fuel →
      parseRolesAux fuel (encodeRolesTail roles ++ rest) = some (roles, rest)
  | [], _, _, h, _ => absurd rfl h
  | [r], fuel, rest, _, hlen => by
    match fuel, hlen with
    | Nat.succ f, _ =>
      have h2 : encodeRolesTail [r] ++ rest
          = '"' :: (escapeChars r.data ++ '"' :: ']' :: rest) := by
        simp [encodeRolesTail]
      rw [h2, parseRolesAux.eq_def]
      simp [parseStrChars_escape r.data (']' :: rest)]
  | r :: s :: rs, fuel, rest, _, hlen => by
    match fuel, hlen with
    | Nat.succ f, hlen =>
      have hf : (s :: rs).length ≤ f := by
        simp only [List.length_cons] at hlen ⊢
        omega
      have ih := encodeRolesTail_parse (s :: rs) f rest (by simp) hf
      have h2 : encodeRolesTail (r :: s :: rs) ++ rest
          = '"' :: (escapeChars r.data ++ '"' :: ',' :: (encodeRolesTail (s :: rs) ++ rest)) := by
        simp [encodeRolesTail]
      rw [h2, parseRolesAux.eq_def]
      simp [parseStrChars_escape r.data (',' :: (encodeRolesTail (s :: rs) ++ rest)), ih]

theorem encodeRolesTail_length : ∀ (roles : List String), roles ≠ [] →
    roles.length ≤ (encodeRolesTail roles).length
  | [], h => absurd rfl h
  | [r], _ => by simp [encodeRolesTail]
  | r :: s :: rs, _ => by
    have ih := encodeRolesTail_length (s :: rs) (by simp)
    simp [encodeRolesTail] at ih ⊢
    omega

theorem encodeRolesTail_cons (r : String) (rs : List String) :
    ∃ t, encodeRolesTail (r :: rs) = '"' :: t := by
  cases rs with
  | nil => exact ⟨escapeChars r.data ++ ['"', ']'], by simp [encodeRolesTail]⟩
  | cons s rs2 =>
    exact ⟨escapeChars r.data ++ '"' :: ',' :: encodeRolesTail (s :: rs2),
      by simp [encodeRolesTail]⟩

theorem parseRoles_encode (roles : List String) :
    parseRoles (encodeRolesBody roles ++ ['\x7d']) = some (roles, ['\x7d']) := by
  cases roles with
  | nil => simp [encodeRolesBody, parseRoles]
  | cons r rs =>
    simp only [encodeRolesBody]
    obtain ⟨t, ht⟩ := encodeRolesTail_cons r rs
    have hlen : (r :: rs).length ≤ (encodeRolesTail (r :: rs) ++ ['\x7d']).length := by
      have h1 := encodeRolesTail_length (r :: rs) (by simp)
      simp only [List.length_append]
      omega
    have hp := encodeRolesTail_parse (r :: rs)
      ((encodeRolesTail (r :: rs) ++ ['\x7d']).length) ['\x7d'] (by simp) hlen
    rw [ht] at hp ⊢
    rw [List.cons_append] at hp ⊢
    rw [parseRoles.eq_def]
    simp only []
    rw [if_neg (by decide)]
    exact hp

/-- Decoding inverts encoding: the modelled codec round-trips every
identity. -/
theorem unmarshal_marshal (i : Identity) :
    unmarshalIdentity (marshalIdentity i) = Except.ok i := by
  obtain ⟨roles⟩ := i
  have hdata : (marshalIdentity ⟨roles⟩).data
      = jsonHead ++ (encodeRolesBody roles ++ ['\x7d']) := rfl
  rw [unmarshalIdentity, hdata, stripLead_append]
  simp [parseRoles_encode]

/-- C1: if the decoded identity's `Roles` contain an entry exactly equal to
the configured role, the unary server interceptor invokes the wrapped handler
on the context enriched via `identity.ContextWithIdentity` and returns the
handler's response and error unmodified. -/
theorem c1_unary_allow_enriches_context {Req Resp : Type}
    (unmarshal : String → Except GoError Identity) (role : String)
    (handler : Context → Req → Option Resp × Option GoError)
    (ctx : Context) (req : Req) (md : Metadata) (v : String) (vs : List String)
    (i : Identity)
    (hmd : metadata.FromIncomingContext ctx = some md)
    (hv : md.get mdIdentityKey = v :: vs)
    (hdec : unmarshal v = Except.ok i)
    (hrole : role ∈ i.Roles) :
    GrantAccessForUnaryRequest unmarshal role handler ctx req
      = handler (identity.ContextWithIdentity ctx i) req := by
  have hr : hasRole i.Roles role = true := (hasRole_eq_true_iff _ _).mpr hrole
  simp [GrantAccessForUnaryRequest, hmd, hv, hdec, hr]

/-- C1 witness: role `admin` among roles `[user, admin]`, handler runs on the
enriched context. -/
theorem c1_witness :
    GrantAccessForUnaryRequest (fun _ => Except.ok ⟨["user", "admin"]⟩) "admin"
        (fun _ n => (some (n + 1), none)) ⟨none, some [("identity", ["j"])], []⟩ 5
      = (some 6, none) :=
  (c1_unary_allow_enriches_context (fun _ => Except.ok ⟨["user", "admin"]⟩) "admin"
      (fun _ n => (some (n + 1), none)) ⟨none, some [("identity", ["j"])], []⟩ 5
      [("identity", ["j"])] "j" [] ⟨["user", "admin"]⟩ rfl rfl rfl (by decide)).trans rfl

/-- C2: when the decoded identity has no role equal to the configured role
(including an empty role set), both server interceptors return the fixed
`ErrInvalidRole` whatever the wrapped handler is (so the handler is never
invoked). -/
theorem c2_no_matching_role_denies
    (unmarshal : String → Except GoError Identity) (role : String)
    (v : String) (vs : List String) (i : Identity)
    (hdec : unmarshal v = Except.ok i)
    (hrole : role ∉ i.Roles) :
    (∀ (Req Resp : Type) (handler : Context → Req → Option Resp × Option GoError)
        (ctx : Context) (req : Req) (md : Metadata),
        metadata.FromIncomingContext ctx = some md →
        md.get mdIdentityKey = v :: vs →
        GrantAccessForUnaryRequest unmarshal role handler ctx req
          = (none, some ErrInvalidRole))
    ∧ (∀ (Srv : Type) (handler : Srv → ServerStream → Option GoError)
        (srv : Srv) (ss : ServerStream) (md : Metadata),
        metadata.FromIncomingContext ss.Context = some md →
        md.get mdIdentityKey = v :: vs →
        GrantAccessForStreamRequest unmarshal role handler srv ss
          = some ErrInvalidRole) := by
  have hr : hasRole i.Roles role = false := (hasRole_eq_false_iff _ _).mpr hrole
  constructor
  · intro Req Resp handler ctx req md hmd hv
    simp [GrantAccessForUnaryRequest, hmd, hv, hdec, hr]
  · intro Srv handler srv ss md hmd hv
    simp [GrantAccessForStreamRequest, hmd, hv, hdec, hr]

/-- C2 witness: required role `admin`, caller roles `[user]`: both
interceptors deny with the fixed error. -/
theorem c2_witness :
    GrantAccessForUnaryRequest (fun _ => Except.ok ⟨["user"]⟩) "admin"
        (fun _ (n : Nat) => ((some (n + 1) : Option Nat), none))
        ⟨none, some [("identity", ["j"])], []⟩ 5
      = (none, some ErrInvalidRole)
    ∧ GrantAccessForStreamRequest (fun _ => Except.ok ⟨["user"]⟩) "admin"
        (fun (_ : Unit) _ => none) () ⟨⟨none, some [("identity", ["j"])], []⟩⟩
      = some ErrInvalidRole :=
  ⟨(c2_no_matching_role_denies (fun _ => Except.ok ⟨["user"]⟩) "admin" "j" []
      ⟨["user"]⟩ rfl (by decide)).1 Nat Nat _ _ 5 _ rfl rfl,
   (c2_no_matching_role_denies (fun _ => Except.ok ⟨["user"]⟩) "admin" "j" []
      ⟨["user"]⟩ rfl (by decide)).2 Unit _ () _ _ rfl rfl⟩

/-- C3: when the first metadata value under the identity key fails to decode,
both server interceptors return the decode error itself, which is distinct
from the fixed permission-denied error. -/
theorem c3_decode_error_propagates (v : String) (e : GoError)
    (hdec : unmarshalIdentity v = Except.error e) :
    (∀ (Req Resp : Type) (role : String)
        (handler : Context → Req → Option Resp × Option GoError)
        (ctx : Context) (req : Req) (md : Metadata) (vs : List String),
        metadata.FromIncomingContext ctx = some md →
        md.get mdIdentityKey = v :: vs →
        GrantAccessForUnaryRequest unmarshalIdentity role handler ctx req
          = (none, some e))
    ∧ (∀ (Srv : Type) (role : String) (handler : Srv → ServerStream → Option GoError)
        (srv : Srv) (ss : ServerStream) (md : Metadata) (vs : List String),
        metadata.FromIncomingContext ss.Context = some md →
        md.get mdIdentityKey = v :: vs →
        GrantAccessForStreamRequest unmarshalIdentity role handler srv ss = some e)
    ∧ e ≠ ErrInvalidRole := by
  refine ⟨?_, ?_, ?_⟩
  · intro Req Resp role handler ctx req md vs hmd hv
    simp [GrantAccessForUnaryRequest, hmd, hv, hdec]
  · intro Srv role handler srv ss md vs hmd hv
    simp [GrantAccessForStreamRequest, hmd, hv, hdec]
  · rw [unmarshalIdentity_error v e hdec]
    simp [ErrInvalidRole]

/-- C3 witness: the literal `oops` is not a valid encoded identity; the unary
interceptor surfaces the JSON error, not the denial error. -/
theorem c3_witness :
    GrantAccessForUnaryRequest unmarshalIdentity "admin"
        (fun _ (n : Nat) => ((some (n + 1) : Option Nat), none))
        ⟨none, some [("identity", ["oops"])], []⟩ 5
      = (none, some (GoError.jsonErr invalidJsonMsg))
    ∧ GoError.jsonErr invalidJsonMsg ≠ ErrInvalidRole :=
  ⟨(c3_decode_error_propagates "oops" (GoError.jsonErr invalidJsonMsg) rfl).1
      Nat Nat "admin" _ _ 5 _ [] rfl rfl,
   (c3_decode_error_propagates "oops" (GoError.jsonErr invalidJsonMsg) rfl).2.2⟩

/-- C4: with no incoming metadata, or an empty value list under the identity
key, both server interceptors deny with the fixed error, for every decoder
(no decode is attempted) and every handler (the handler is never invoked). -/
theorem c4_absent_identity_denies :
    (∀ (Req Resp : Type) (unmarshal : String → Except GoError Identity)
        (role : String) (handler : Context → Req → Option Resp × Option GoError)
        (ctx : Context) (req : Req),
        metadata.FromIncomingContext ctx = none →
        GrantAccessForUnaryRequest unmarshal role handler ctx req
          = (none, some ErrInvalidRole))
    ∧ (∀ (Req Resp : Type) (unmarshal : String → Except GoError Identity)
        (role : String) (handler : Context → Req → Option Resp × Option GoError)
        (ctx : Context) (req : Req) (md : Metadata),
        metadata.FromIncomingContext ctx = some md →
        md.get mdIdentityKey = [] →
        GrantAccessForUnaryRequest unmarshal role handler ctx req
          = (none, some ErrInvalidRole))
    ∧ (∀ (Srv : Type) (unmarshal : String → Except GoError Identity)
        (role : String) (handler : Srv → ServerStream → Option GoError)
        (srv : Srv) (ss : ServerStream),
        metadata.FromIncomingContext ss.Context = none →
        GrantAccessForStreamRequest unmarshal role handler srv ss
          = some ErrInvalidRole)
    ∧ (∀ (Srv : Type) (unmarshal : String → Except GoError Identity)
        (role : String) (handler : Srv → ServerStream → Option GoError)
        (srv : Srv) (ss : ServerStream) (md : Metadata),
        metadata.FromIncomingContext ss.Context = some md →
        md.get mdIdentityKey = [] →
        GrantAccessForStreamRequest unmarshal role handler srv ss
          = some ErrInvalidRole) := by
  refine ⟨?_, ?_, ?_, ?_⟩
  · intro Req Resp unmarshal role handler ctx req hmd
    simp [GrantAccessForUnaryRequest, hmd]
  · intro Req Resp unmarshal role handler ctx req md hmd hv
    simp [GrantAccessForUnaryRequest, hmd, hv]
  · intro Srv unmarshal role handler srv ss hmd
    simp [GrantAccessForStreamRequest, hmd]
  · intro Srv unmarshal role handler srv ss md hmd hv
    simp [GrantAccessForStreamRequest, hmd, hv]

/-- C4 witness: no metadata at all, and metadata with an empty value list
under the identity key, both denied. -/
theorem c4_witness :
    GrantAccessForUnaryRequest (fun _ => Except.ok ⟨["admin"]⟩) "admin"
        (fun _ (n : Nat) => ((some (n + 1) : Option Nat), none)) ⟨none, none, []⟩ 5
      = (none, some ErrInvalidRole)
    ∧ GrantAccessForUnaryRequest (fun _ => Except.ok ⟨["admin"]⟩) "admin"
        (fun _ (n : Nat) => ((some (n + 1) : Option Nat), none))
        ⟨none, some [("identity", [])], []⟩ 5
      = (none, some ErrInvalidRole)
    ∧ GrantAccessForStreamRequest (fun _ => Except.ok ⟨["admin"]⟩) "admin"
        (fun (_ : Unit) _ => none) () ⟨⟨none, none, []⟩⟩
      = some ErrInvalidRole
    ∧ GrantAccessForStreamRequest (fun _ => Except.ok ⟨["admin"]⟩) "admin"
        (fun (_ : Unit) _ => none) () ⟨⟨none, some [("identity", [])], []⟩⟩
      = some ErrInvalidRole :=
  ⟨c4_absent_identity_denies.1 Nat Nat _ "admin" _ _ 5 rfl,
   c4_absent_identity_denies.2.1 Nat Nat _ "admin" _ _ 5 _ rfl rfl,
   c4_absent_identity_denies.2.2.1 Unit _ "admin" _ () _ rfl,
   c4_absent_identity_denies.2.2.2 Unit _ "admin" _ () _ _ rfl rfl⟩

/-- C5: when the identity in the outgoing context fails to serialize, both
client interceptors return the serialization error verbatim, for every
invoker and streamer (neither is ever called). -/
theorem c5_marshal_error_aborts
    (marshal : Identity → Except GoError String) (i : Identity) (e : GoError)
    (hm : marshal i = Except.error e) :
    (∀ (Req Reply Conn CallOpt : Type)
        (invoker : Context → String → Req → Reply → Conn → List CallOpt → Option GoError)
        (ctx : Context) (method : String) (req : Req) (reply : Reply) (cc : Conn)
        (opts : List CallOpt),
        identity.FromContext ctx = some i →
        AppendIdentityToOutgoingUnaryContext marshal invoker ctx method req reply cc opts
          = some e)
    ∧ (∀ (Desc Conn CallOpt ClientStream : Type)
        (streamer : Context → Desc → Conn → String → List CallOpt →
          Option ClientStream × Option GoError)
        (ctx : Context) (desc : Desc) (cc : Conn) (method : String)
        (opts : List CallOpt),
        identity.FromContext ctx = some i →
        AppendIdentityToOutgoingStreamContext marshal streamer ctx desc cc method opts
          = (none, some e)) := by
  constructor
  · intro Req Reply Conn CallOpt invoker ctx method req reply cc opts hid
    simp [AppendIdentityToOutgoingUnaryContext, hid, hm]
  · intro Desc Conn CallOpt ClientStream streamer ctx desc cc method opts hid
    simp [AppendIdentityToOutgoingStreamContext, hid, hm]

/-- C5 witness: a failing marshaller aborts both call shapes with its own
error. -/
theorem c5_witness :
    AppendIdentityToOutgoingUnaryContext (fun _ => Except.error (GoError.jsonErr "boom"))
        (fun _ _ (_ : Nat) (_ : Nat) (_ : Unit) (_ : List Unit) => none)
        ⟨some ⟨["admin"]⟩, none, []⟩ "m" 1 2 () []
      = some (GoError.jsonErr "boom")
    ∧ AppendIdentityToOutgoingStreamContext (fun _ => Except.error (GoError.jsonErr "boom"))
        (fun _ (_ : Unit) (_ : Unit) _ (_ : List Unit) => ((some () : Option Unit), none))
        ⟨some ⟨["admin"]⟩, none, []⟩ () () "m" []
      = (none, some (GoError.jsonErr "boom")) :=
  ⟨(c5_marshal_error_aborts (fun _ => Except.error (GoError.jsonErr "boom"))
      ⟨["admin"]⟩ (GoError.jsonErr "boom") rfl).1 Nat Nat Unit Unit _ _ "m" 1 2 () [] rfl,
   (c5_marshal_error_aborts (fun _ => Except.error (GoError.jsonErr "boom"))
      ⟨["admin"]⟩ (GoError.jsonErr "boom") rfl).2 Unit Unit Unit Unit _ _ () () "m" [] rfl⟩

/-- C6: when the outgoing context carries no identity, both client
interceptors call the wrapped invoker or streamer with the context and every
other argument exactly as received (no metadata is attached). -/
theorem c6_no_identity_forwards_unchanged
    (marshal : Identity → Except GoError String) :
    (∀ (Req Reply Conn CallOpt : Type)
        (invoker : Context → String → Req → Reply → Conn → List CallOpt → Option GoError)
        (ctx : Context) (method : String) (req : Req) (reply : Reply) (cc : Conn)
        (opts : List CallOpt),
        identity.FromContext ctx = none →
        AppendIdentityToOutgoingUnaryContext marshal invoker ctx method req reply cc opts
          = invoker ctx method req reply cc opts)
    ∧ (∀ (Desc Conn CallOpt ClientStream : Type)
        (streamer : Context → Desc → Conn → String → List CallOpt →
          Option ClientStream × Option GoError)
        (ctx : Context) (desc : Desc) (cc : Conn) (method : String)
        (opts : List CallOpt),
        identity.FromContext ctx = none →
        AppendIdentityToOutgoingStreamContext marshal streamer ctx desc cc method opts
          = streamer ctx desc cc method opts) := by
  constructor
  · intro Req Reply Conn CallOpt invoker ctx method req reply cc opts hid
    simp [AppendIdentityToOutgoingUnaryContext, hid]
  · intro Desc Conn CallOpt ClientStream streamer ctx desc cc method opts hid
    simp [AppendIdentityToOutgoingStreamContext, hid]

/-- C6 witness: with no identity in the context, the invoker and streamer see
the untouched context and arguments. -/
theorem c6_witness :
    AppendIdentityToOutgoingUnaryContext marshalIdentityE
        (fun c _ (n : Nat) (_ : Nat) (_ : Unit) (_ : List Unit) =>
          some (GoError.app (n + c.outgoingMD.length) "u"))
        ⟨none, some [], [("k", "v")]⟩ "m" 7 2 () []
      = some (GoError.app 8 "u")
    ∧ AppendIdentityToOutgoingStreamContext marshalIdentityE
        (fun c (_ : Unit) (_ : Unit) m (_ : List Unit) =>
          (some c.outgoingMD.length, some (GoError.app 0 m)))
        ⟨none, none, []⟩ () () "mm" []
      = (some 0, some (GoError.app 0 "mm")) :=
  ⟨((c6_no_identity_forwards_unchanged marshalIdentityE).1 Nat Nat Unit Unit
      (fun c _ (n : Nat) (_ : Nat) (_ : Unit) (_ : List Unit) =>
        some (GoError.app (n + c.outgoingMD.length) "u"))
      ⟨none, some [], [("k", "v")]⟩ "m" 7 2 () [] rfl).trans rfl,
   ((c6_no_identity_forwards_unchanged marshalIdentityE).2 Unit Unit Unit Nat
      (fun c (_ : Unit) (_ : Unit) m (_ : List Unit) =>
        (some c.outgoingMD.length, some (GoError.app 0 m)))
      ⟨none, none, []⟩ () () "mm" [] rfl).trans rfl⟩

/-- C7: on the streaming allow path the handler is invoked with the original
server stream, whose context does not carry the decoded identity (the source
leaves the context-attachment as a TODO). -/
theorem c7_stream_allow_original_stream {Srv : Type}
    (unmarshal : String → Except GoError Identity) (role : String)
    (handler : Srv → ServerStream → Option GoError)
    (srv : Srv) (ss : ServerStream) (md : Metadata) (v : String) (vs : List String)
    (i : Identity)
    (hmd : metadata.FromIncomingContext ss.Context = some md)
    (hv : md.get mdIdentityKey = v :: vs)
    (hdec : unmarshal v = Except.ok i)
    (hrole : role ∈ i.Roles)
    (hid : identity.FromContext ss.Context = none) :
    GrantAccessForStreamRequest unmarshal role handler srv ss = handler srv ss
    ∧ identity.FromContext ss.Context ≠ some i := by
  have hr : hasRole i.Roles role = true := (hasRole_eq_true_iff _ _).mpr hrole
  constructor
  · simp [GrantAccessForStreamRequest, hmd, hv, hdec, hr]
  · rw [hid]
    simp

/-- C7 witness: the allowed stream handler observes a context with no
identity attached. -/
theorem c7_witness :
    GrantAccessForStreamRequest (fun _ => Except.ok ⟨["admin"]⟩) "admin"
        (fun (_ : Unit) ss => some (GoError.app ss.Context.identity.toList.length "seen"))
        () ⟨⟨none, some [("identity", ["j"])], []⟩⟩
      = some (GoError.app 0 "seen")
    ∧ identity.FromContext (ServerStream.Context ⟨⟨none, some [("identity", ["j"])], []⟩⟩)
      ≠ some ⟨["admin"]⟩ :=
  ⟨((c7_stream_allow_original_stream (fun _ => Except.ok ⟨["admin"]⟩) "admin"
      (fun (_ : Unit) ss => some (GoError.app ss.Context.identity.toList.length "seen"))
      () ⟨⟨none, some [("identity", ["j"])], []⟩⟩ _ "j" [] ⟨["admin"]⟩
      rfl rfl rfl (by decide) rfl).1).trans rfl,
   (c7_stream_allow_original_stream (fun _ => Except.ok ⟨["admin"]⟩) "admin"
      (fun (_ : Unit) ss => some (GoError.app ss.Context.identity.toList.length "seen"))
      () ⟨⟨none, some [("identity", ["j"])], []⟩⟩ _ "j" [] ⟨["admin"]⟩
      rfl rfl rfl (by decide) rfl).2⟩

/-- C8: encoding an identity on the outgoing side attaches its JSON under the
fixed key; transported to incoming metadata, the value stored under that key
is exactly that JSON, and decoding it yields a structurally equal identity
(the role list is preserved verbatim, hence up to order). -/
theorem c8_encode_decode_roundtrip (i : Identity) {Req Reply Conn CallOpt : Type}
    (invoker : Context → String → Req → Reply → Conn → List CallOpt → Option GoError)
    (method : String) (req : Req) (reply : Reply) (cc : Conn) (opts : List CallOpt) :
    AppendIdentityToOutgoingUnaryContext marshalIdentityE invoker
        ⟨some i, none, []⟩ method req reply cc opts
      = invoker ⟨some i, none, [(mdIdentityKey, marshalIdentity i)]⟩ method req reply cc opts
    ∧ (pairsToMD [(mdIdentityKey, marshalIdentity i)]).get mdIdentityKey
        = [marshalIdentity i]
    ∧ unmarshalIdentity (marshalIdentity i) = Except.ok i :=
  ⟨rfl, rfl, unmarshal_marshal i⟩

/-- C9: with several values under the identity key, the server interceptors'
outcome is a function of the first value alone: the decision and the identity
the handler observes do not mention the remaining values. -/
theorem c9_only_first_value_used
    (unmarshal : String → Except GoError Identity) (role : String) :
    (∀ (Req Resp : Type) (handler : Context → Req → Option Resp × Option GoError)
        (ctx : Context) (req : Req) (md : Metadata) (v : String) (vs : List String),
        metadata.FromIncomingContext ctx = some md →
        md.get mdIdentityKey = v :: vs →
        GrantAccessForUnaryRequest unmarshal role handler ctx req
          = match unmarshal v with
            | Except.error e => (none, some e)
            | Except.ok i =>
              if hasRole i.Roles role then
                handler (identity.ContextWithIdentity ctx i) req
              else (none, some ErrInvalidRole))
    ∧ (∀ (Srv : Type) (handler : Srv → ServerStream → Option GoError)
        (srv : Srv) (ss : ServerStream) (md : Metadata) (v : String) (vs : List String),
        metadata.FromIncomingContext ss.Context = some md →
        md.get mdIdentityKey = v :: vs →
        GrantAccessForStreamRequest unmarshal role handler srv ss
          = match unmarshal v with
            | Except.error e => some e
            | Except.ok i =>
              if hasRole i.Roles role then handler srv ss
              else some ErrInvalidRole) := by
  constructor
  · intro Req Resp handler ctx req md v vs hmd hv
    rcases hu : unmarshal v with e | i <;>
      simp [GrantAccessForUnaryRequest, hmd, hv, hu]
  · intro Srv handler srv ss md v vs hmd hv
    rcases hu : unmarshal v with e | i <;>
      simp [GrantAccessForStreamRequest, hmd, hv, hu]

/-- C9 witness: two values under the key; the extra second value does not
change the outcome computed from the first. -/
theorem c9_witness :
    GrantAccessForUnaryRequest (fun s => if s = "j" then Except.ok ⟨["admin"]⟩
        else Except.error (GoError.jsonErr "bad")) "admin"
        (fun _ n => (some (n + 1), none))
        ⟨none, some [("identity", ["j", "extra"])], []⟩ 5
      = (some 6, none) :=
  ((c9_only_first_value_used (fun s => if s = "j" then Except.ok ⟨["admin"]⟩
      else Except.error (GoError.jsonErr "bad")) "admin").1 Nat Nat
      (fun _ n => (some (n + 1), none))
      ⟨none, some [("identity", ["j", "extra"])], []⟩ 5
      [("identity", ["j", "extra"])] "j" ["extra"] rfl rfl).trans (by simp [hasRole])

/-- C10: each user command handler closure sends exactly one value on the
`out` channel and returns after that send; when the aggregate operation (or
`uuid.NewRandom`) fails, `Repository.Save` is never called. -/
theorem c10_single_send_no_save_on_failure :
    (∀ (User : Type) (repoGet : UUID → User) (repoSave : Context → User → Option GoError)
        (op : User → String → Except GoError User) (wf : Context → Context)
        (ctx : Context) (c : ChangeEmailAddress),
        (OnChangeEmailAddress repoGet repoSave op wf ctx c).1.length = 1
        ∧ (∀ e, op (repoGet c.ID) c.Email = Except.error e →
            (OnChangeEmailAddress repoGet repoSave op wf ctx c).2 = 0))
    ∧ (∀ (User : Type) (repoSave : Context → User → Option GoError)
        (nr : Except GoError UUID) (nu : User)
        (op : User → UUID → String → Except GoError User) (wf : Context → Context)
        (ctx : Context) (c : RegisterWithEmail),
        (OnRegisterWithEmail repoSave nr nu op wf ctx c).1.length = 1
        ∧ (∀ e, nr = Except.error e →
            (OnRegisterWithEmail repoSave nr nu op wf ctx c).2 = 0)
        ∧ (∀ id e, nr = Except.ok id → op nu id c.Email = Except.error e →
            (OnRegisterWithEmail repoSave nr nu op wf ctx c).2 = 0))
    ∧ (∀ (User : Type) (repoSave : Context → User → Option GoError)
        (nr : Except GoError UUID) (nu : User)
        (op : User → UUID → String → Except GoError User) (wf : Context → Context)
        (ctx : Context) (c : RegisterWithFacebook),
        (OnRegisterWithFacebook repoSave nr nu op wf ctx c).1.length = 1
        ∧ (∀ e, nr = Except.error e →
            (OnRegisterWithFacebook repoSave nr nu op wf ctx c).2 = 0)
        ∧ (∀ id e, nr = Except.ok id → op nu id c.Email = Except.error e →
            (OnRegisterWithFacebook repoSave nr nu op wf ctx c).2 = 0))
    ∧ (∀ (User : Type) (repoSave : Context → User → Option GoError)
        (nr : Except GoError UUID) (nu : User)
        (op : User → UUID → String → Except GoError User) (wf : Context → Context)
        (ctx : Context) (c : RegisterWithGoogle),
        (OnRegisterWithGoogle repoSave nr nu op wf ctx c).1.length = 1
        ∧ (∀ e, nr = Except.error e →
            (OnRegisterWithGoogle repoSave nr nu op wf ctx c).2 = 0)
        ∧ (∀ id e, nr = Except.ok id → op nu id c.Email = Except.error e →
            (OnRegisterWithGoogle repoSave nr nu op wf ctx c).2 = 0)) := by
  refine ⟨?_, ?_, ?_, ?_⟩
  · intro User repoGet repoSave op wf ctx c
    constructor
    · rcases h : op (repoGet c.ID) c.Email with e | u <;>
        simp [OnChangeEmailAddress, h]
    · intro e he
      simp [OnChangeEmailAddress, he]
  · intro User repoSave nr nu op wf ctx c
    refine ⟨?_, ?_, ?_⟩
    · rcases hr : nr with e | id
      · simp [OnRegisterWithEmail, hr]
      · rcases h : op nu id c.Email with e | u <;>
          simp [OnRegisterWithEmail, hr, h]
    · intro e he
      simp [OnRegisterWithEmail, he]
    · intro id e hid he
      simp [OnRegisterWithEmail, hid, he]
  · intro User repoSave nr nu op wf ctx c
    refine ⟨?_, ?_, ?_⟩
    · rcases hr : nr with e | id
      · simp [OnRegisterWithFacebook, hr]
      · rcases h : op nu id c.Email with e | u <;>
          simp [OnRegisterWithFacebook, hr, h]
    · intro e he
      simp [OnRegisterWithFacebook, he]
    · intro id e hid he
      simp [OnRegisterWithFacebook, hid, he]
  · intro User repoSave nr nu op wf ctx c
    refine ⟨?_, ?_, ?_⟩
    · rcases hr : nr with e | id
      · simp [OnRegisterWithGoogle, hr]
      · rcases h : op nu id c.Email with e | u <;>
          simp [OnRegisterWithGoogle, hr, h]
    · intro e he
      simp [OnRegisterWithGoogle, he]
    · intro id e hid he
      simp [OnRegisterWithGoogle, hid, he]

/-- C10 witness: a failing change-email operation sends one error and never
saves; a failing register operation likewise. -/
theorem c10_witness :
    (OnChangeEmailAddress (fun _ => (0 : Nat)) (fun _ _ => none)
        (fun _ _ => Except.error (GoError.app 1 "taken")) (fun c => c)
        ⟨none, none, []⟩ ⟨1, "a"⟩).1.length = 1
    ∧ (OnChangeEmailAddress (fun _ => (0 : Nat)) (fun _ _ => none)
        (fun _ _ => Except.error (GoError.app 1 "taken")) (fun c => c)
        ⟨none, none, []⟩ ⟨1, "a"⟩).2 = 0
    ∧ (OnRegisterWithEmail (fun _ (_ : Nat) => none) (Except.ok 9) 0
        (fun _ _ _ => Except.error (GoError.app 2 "taken")) (fun c => c)
        ⟨none, none, []⟩ ⟨"a"⟩).2 = 0 :=
  ⟨(c10_single_send_no_save_on_failure.1 Nat (fun _ => 0) (fun _ _ => none)
      (fun _ _ => Except.error (GoError.app 1 "taken")) (fun c => c)
      ⟨none, none, []⟩ ⟨1, "a"⟩).1,
   (c10_single_send_no_save_on_failure.1 Nat (fun _ => 0) (fun _ _ => none)
      (fun _ _ => Except.error (GoError.app 1 "taken")) (fun c => c)
      ⟨none, none, []⟩ ⟨1, "a"⟩).2 (GoError.app 1 "taken") rfl,
   (c10_single_send_no_save_on_failure.2.1 Nat (fun _ (_ : Nat) => none) (Except.ok 9) 0
      (fun _ _ _ => Except.error (GoError.app 2 "taken")) (fun c => c)
      ⟨none, none, []⟩ ⟨"a"⟩).2.2 9 (GoError.app 2 "taken") rfl rfl⟩
